import Mathlib

/-!
# Wait4X waiter core: a shallow embedding

A shallow embedding of the retry/backoff orchestrator of wait4x and of the
response-validation paths of its HTTP and gRPC probes, together with proofs
about the embedded definitions.

Conventions of the embedding:

* Go `time.Duration` values (int64 nanoseconds) are modelled as `ℤ`; none of
  the scenarios proved here comes anywhere near the int64 range, so wrap-around
  is not modelled.
* Go `float64` values (the backoff coefficient and the intermediate multiplier)
  are modelled as exact rationals `ℚ`.  The one float-specific branch of the
  source, `math.IsInf(multiplier, 1)`, cannot fire in exact arithmetic: a float
  power that overflows to `+Inf` exceeds every finite bound, in particular the
  `maxInterval/initialInterval` ratio tested by the same disjunction, so the
  disjunction collapses to the ratio comparison.
* A Go `error` value is `Option GoError`, `none` standing for `nil`.
* Wall-clock time is `ℤ` (nanoseconds); a context is its "done" instant plus
  the cause `ctx.Err()` reports afterwards.  Probe checks are modelled as
  instantaneous.  In the `select` between the backoff timer and `ctx.Done()`,
  the context branch is taken whenever the context is done by the instant the
  timer fires (in Go a simultaneous arrival is resolved randomly; the model
  resolves it to the context branch, matching the intent that a finished
  deadline stops the loop).
* The Go `for` loop has no termination guarantee, so the loop is driven by
  explicit fuel; a run that exhausts its fuel reports `none` as its outcome
  while still reporting the trace of probe invocations it made.
-/

/-- A Go error value as the waiter observes it: the tagged retriable error
`*checker.ExpectedError` (message, optional wrapped cause, ordered diagnostic
key/value pairs), the two context sentinel errors, or any other error. -/
inductive GoError where
  | expected (message : String) (cause : Option String) (details : List (String × String))
  | canceled
  | deadlineExceeded
  | other (message : String)
deriving DecidableEq

/-- Whether `errors.As(err, &expectedError)` succeeds for this error. -/
def GoError.isExpected : GoError → Bool
  | .expected _ _ _ => true
  | _ => false

/-! ## Backoff calculator (waiter/backoff.go, `exponentialBackoff`) -/

/-- Go's conversion `time.Duration(f)` of a `float64` to an int64 truncates
toward zero; on an exact rational this is `num.tdiv den`. -/
def ratTrunc (q : ℚ) : ℤ := q.num.tdiv q.den

/-- The exponential backoff calculator:

```go
func exponentialBackoff(retries int, backoffCoefficient float64,
    initialInterval, maxInterval time.Duration) (time.Duration, error) {
  multiplier := math.Pow(backoffCoefficient, float64(retries))
  if math.IsInf(multiplier, 1) || multiplier > float64(maxInterval)/float64(initialInterval) {
    return maxInterval, nil
  }
  interval := initialInterval * time.Duration(multiplier)
  if interval <= 0 { return 0, fmt.Errorf("calculated interval is invalid ...") }
  if interval > maxInterval { return maxInterval, nil }
  return interval, nil
}
```

The waiter only ever passes non-negative `retries`, modelled as `ℕ`.  The Go
error message interpolates the operands; the model keeps a fixed text since
nothing ever reads it back. -/
def exponentialBackoff (retries : ℕ) (backoffCoefficient : ℚ)
    (initialInterval maxInterval : ℤ) : Except String ℤ :=
  let multiplier : ℚ := backoffCoefficient ^ retries
  if multiplier > (maxInterval : ℚ) / (initialInterval : ℚ) then
    .ok maxInterval
  else
    let interval : ℤ := initialInterval * ratTrunc multiplier
    if interval ≤ 0 then
      .error "calculated interval is invalid"
    else if interval > maxInterval then
      .ok maxInterval
    else
      .ok interval

instance : DecidableEq (Except String ℤ) := fun a b =>
  match a, b with
  | .error a, .error b =>
    match decEq a b with
    | isTrue h => isTrue (by rw [h])
    | isFalse h => isFalse (fun e => h (by cases e; rfl))
  | .error _, .ok _ => isFalse (fun e => by cases e)
  | .ok _, .error _ => isFalse (fun e => by cases e)
  | .ok a, .ok b =>
    match decEq a b with
    | isTrue h => isTrue (by rw [h])
    | isFalse h => isFalse (fun e => h (by cases e; rfl))

/-! ## Waiter configuration and validation (waiter/waiter.go) -/

/-- `BackoffPolicyLinear` -/
def BackoffPolicyLinear : String := "linear"

/-- `BackoffPolicyExponential` -/
def BackoffPolicyExponential : String := "exponential"

/-- The waiter `options` record.  The logger is omitted: it has no effect on
any value the waiter computes. -/
structure WaiterOptions where
  timeout : ℤ
  interval : ℤ
  invertCheck : Bool
  backoffPolicy : String
  backoffExponentialMaxInterval : ℤ
  backoffCoefficient : ℚ
deriving DecidableEq

/-- One second in the duration unit of the model (nanoseconds). -/
def nsPerSecond : ℤ := 1000000000

/-- The defaults `WaitContext` installs before applying the option list. -/
def defaultWaiterOptions : WaiterOptions where
  timeout := 10 * nsPerSecond
  interval := nsPerSecond
  invertCheck := false
  backoffPolicy := BackoffPolicyLinear
  backoffExponentialMaxInterval := 5 * nsPerSecond
  backoffCoefficient := 2

/-- The four fatal configuration errors `WaitContext` can return, in the shape
of the `fmt.Errorf` call sites. -/
inductive ConfigError where
  | invalidBackoffPolicy (policy : String)
  | coefficientNotGreaterThanOne (c : ℚ)
  | maxIntervalLessThanInterval (maxInterval interval : ℤ)
  | nonPositiveInterval (interval : ℤ)
deriving DecidableEq

/-- Left-pad a digit string with zeros to the given width. -/
def padLeftZeros (s : String) (width : ℕ) : String :=
  String.mk (List.replicate (width - s.length) '0') ++ s

/-- Go's `%f` formatting of a float: six digits after the decimal point,
rounded to nearest (ties cannot arise at the call sites exercised here). -/
def goFormatF (q : ℚ) : String :=
  let a : ℚ := |q|
  let scaled : ℤ := ⌊a * 1000000 + 1 / 2⌋
  let ip : ℤ := scaled / 1000000
  let fp : ℤ := scaled % 1000000
  (if q < 0 then "-" else "") ++ toString ip ++ "." ++ padLeftZeros (toString fp) 6

/-- Helper of Go `time.Duration.String`: print the low `prec` digits of `v` as
a fraction (skipping trailing zeros, and the decimal point when the whole
fraction is zero), prepending to `acc`; returns the remaining digits of `v`. -/
def goFmtFrac : ℕ → ℕ → Bool → List Char → List Char × ℕ
  | v, 0, print, acc => (if print then '.' :: acc else acc, v)
  | v, prec + 1, print, acc =>
    let digit := v % 10
    let print := print || digit ≠ 0
    let acc := if print then Char.ofNat (digit + 48) :: acc else acc
    goFmtFrac (v / 10) prec print acc

/-- Go `time.Duration.String()` (`%v` on a duration): `"0s"`, sub-second values
with a `ns`/`µs`/`ms` unit, and otherwise `h`/`m`/`s` components with a
fractional second. -/
def goDurationString (d : ℤ) : String :=
  let u := d.natAbs
  let chars : List Char :=
    if u < 1000000000 then
      if u = 0 then ['0', 's']
      else
        let (prec, unit) : ℕ × List Char :=
          if u < 1000 then (0, ['n', 's'])
          else if u < 1000000 then (3, ['µ', 's'])
          else (6, ['m', 's'])
        let (frac, v) := goFmtFrac u prec false unit
        (toString v).data ++ frac
    else
      let (frac, v) := goFmtFrac u 9 false ['s']
      let secs := (toString (v % 60)).data ++ frac
      let v := v / 60
      if v > 0 then
        let withMin := (toString (v % 60)).data ++ 'm' :: secs
        let v := v / 60
        if v > 0 then (toString v).data ++ 'h' :: withMin else withMin
      else secs
  String.mk (if d < 0 then '-' :: chars else chars)

/-- The exact `fmt.Errorf` message of each fatal configuration error. -/
def ConfigError.message : ConfigError → String
  | .invalidBackoffPolicy policy => "invalid backoff policy: " ++ policy
  | .coefficientNotGreaterThanOne c =>
      "backoff coefficient must be greater than 1.0, got: " ++ goFormatF c
  | .maxIntervalLessThanInterval maxI i =>
      "backoff exponential max interval (" ++ goDurationString maxI ++
        ") must be greater than or equal to interval (" ++ goDurationString i ++ ")"
  | .nonPositiveInterval i => "interval must be positive, got: " ++ goDurationString i

/-- The validation block of `WaitContext`, run once before any probe
interaction, in source order: backoff policy membership, then (for the
exponential policy) coefficient and max interval, then interval positivity. -/
def validateOptions (o : WaiterOptions) : Option ConfigError :=
  if o.backoffPolicy ≠ BackoffPolicyLinear ∧ o.backoffPolicy ≠ BackoffPolicyExponential then
    some (.invalidBackoffPolicy o.backoffPolicy)
  else if o.backoffPolicy = BackoffPolicyExponential ∧ o.backoffCoefficient ≤ 1 then
    some (.coefficientNotGreaterThanOne o.backoffCoefficient)
  else if o.backoffPolicy = BackoffPolicyExponential ∧
      o.backoffExponentialMaxInterval < o.interval then
    some (.maxIntervalLessThanInterval o.backoffExponentialMaxInterval o.interval)
  else if o.interval ≤ 0 then
    some (.nonPositiveInterval o.interval)
  else
    none

/-! ## Waiter loop (waiter/waiter.go, `WaitContext` / `WaitParallelContext`) -/

/-- A context: the absolute instant its `Done` channel closes (`none` = never)
and the cause `ctx.Err()` reports from that instant on. -/
structure GoContext where
  doneAt : Option ℤ
  cause : GoError
deriving DecidableEq

/-- `context.WithTimeout(ctx, timeout)` taken at instant `now`: the child is
done at `now + timeout` with cause `context.DeadlineExceeded`, unless the
parent is done no later, in which case the parent's cause wins. -/
def withTimeout (ctx : GoContext) (now timeout : ℤ) : GoContext :=
  let d := now + timeout
  match ctx.doneAt with
  | none => ⟨some d, .deadlineExceeded⟩
  | some p => if p ≤ d then ctx else ⟨some d, .deadlineExceeded⟩

/-- The context the main loop runs under: `WaitContext` wraps the parent with
the configured timeout unless the timeout is `0` ("unlimited"). -/
def derivedContext (ctx : GoContext) (now : ℤ) (o : WaiterOptions) : GoContext :=
  if o.timeout ≠ 0 then withTimeout ctx now o.timeout else ctx

/-- A probe: the result of `Identity()` and, for each `k`, the error the
`k`-th invocation of `Check` returns (`none` = nil). -/
structure Probe where
  identity : Except GoError String
  check : ℕ → Option GoError

/-- A probe interaction, stamped with the instant it happens. -/
inductive ProbeEvent where
  | identityCall (t : ℤ)
  | checkCall (t : ℤ)
deriving DecidableEq

/-- How the main loop ends: `break` (the waiter then returns nil), or
`return ctx.Err()` out of the timer select. -/
inductive WaitOutcome where
  | ok
  | ctxErr (e : GoError)
deriving DecidableEq

/-- What `WaitContext` returns. -/
inductive WaitReturn where
  | fatalConfig (e : ConfigError)
  | identityError (e : GoError)
  | ok
  | ctxError (e : GoError)
deriving DecidableEq

/-- The wait duration computed at the bottom of each loop iteration:
the backoff calculator's value under the exponential policy, the plain
interval otherwise.  The loop predates the calculator's error return, so the
`Except` layer is collapsed; with validated options the error branch is
unreachable (proved below). -/
def waitDurationFor (o : WaiterOptions) (retries : ℕ) : ℤ :=
  if o.backoffPolicy = BackoffPolicyExponential then
    match exponentialBackoff retries o.backoffCoefficient o.interval
        o.backoffExponentialMaxInterval with
    | .ok v => v
    | .error _ => 0
  else o.interval

/-- The main `for` loop of `WaitContext`, one iteration per fuel unit, started
at instant `t` with `k` checks already made and the current retry counter:
invoke `Check`; stop on nil (non-inverted) or on any non-nil error (inverted);
otherwise bump the retry counter (saturating at 1,000,000), compute the wait
duration and sleep on the timer select, returning `ctx.Err()` if the context
is done by the time the timer would fire.  Produces the timestamps of all
`Check` invocations and the outcome (`none` when fuel ran out). -/
def waitLoop (o : WaiterOptions) (p : Probe) (ctx : GoContext) :
    ℕ → ℤ → ℕ → ℕ → List ℤ × Option WaitOutcome
  | 0, _, _, _ => ([], none)
  | fuel + 1, t, k, retries =>
    let err := p.check k
    let shouldStop := (err.isNone && !o.invertCheck) || (err.isSome && o.invertCheck)
    if shouldStop then
      ([t], some .ok)
    else
      let retries := if retries < 1000000 then retries + 1 else retries
      let waitDuration := waitDurationFor o retries
      match ctx.doneAt with
      | some d =>
        if d ≤ t + waitDuration then
          ([t], some (.ctxErr ctx.cause))
        else
          let r := waitLoop o p ctx fuel (t + waitDuration) (k + 1) retries
          (t :: r.1, r.2)
      | none =>
        let r := waitLoop o p ctx fuel (t + waitDuration) (k + 1) retries
        (t :: r.1, r.2)

/-- `WaitContext` at instant `now`: defaults and option application are folded
into `o`; validate the configuration, derive the timeout context, resolve the
probe's identity, then run the main loop.  Returns the probe-interaction trace
and the waiter's return value (`none` when the loop's fuel ran out). -/
def waitContext (fuel : ℕ) (ctx : GoContext) (now : ℤ) (p : Probe) (o : WaiterOptions) :
    List ProbeEvent × Option WaitReturn :=
  match validateOptions o with
  | some e => ([], some (.fatalConfig e))
  | none =>
    let ctx := derivedContext ctx now o
    match p.identity with
    | .error e => ([.identityCall now], some (.identityError e))
    | .ok _ =>
      let r := waitLoop o p ctx fuel now 0 0
      (.identityCall now :: r.1.map .checkCall,
        match r.2 with
        | none => none
        | some .ok => some .ok
        | some (.ctxErr e) => some (.ctxError e))

/-- The timestamps of the `Check` invocations in a probe-interaction trace. -/
def checkTimes (events : List ProbeEvent) : List ℤ :=
  events.filterMap fun e =>
    match e with
    | .checkCall t => some t
    | .identityCall _ => none

/-- One scheduling of the collector goroutine of `WaitParallelContext`:
`lateToSelect` is whether the main goroutine reaches its `select` only after
the wait-group goroutine has already closed `wgDone` (every worker finished
first), and `pickDoneOnTie` is the uniform choice Go's `select` makes between
the two cases when both are ready at that point.  When the collector arrives
at the `select` before `wgDone` is closed, no tie can arise: an error, if any,
is on the channel strictly before `wgDone` closes, so the error case is the
first (or only) one ready. -/
structure CollectorSchedule where
  lateToSelect : Bool
  pickDoneOnTie : Bool
deriving DecidableEq

/-- The head of the `wgErrors` buffer once the workers have run: the first
non-nil result in completion order.  The channel is buffered to the probe
count and each worker sends at most once, so the non-blocking send never hits
its discard branch and the errors sit in the buffer in arrival order. -/
def firstError : List (Option GoError) → Option GoError
  | [] => none
  | some e :: _ => some e
  | none :: rest => firstError rest

/-- `WaitParallelContext`: `arrivals` lists each probe's single-check result
in the order the per-probe goroutines finish, and `sched` fixes the
scheduling of the collector.  A failing worker sends its error on the
buffered channel before calling `wg.Done()`, so the first error (if any) is
enqueued strictly before `wgDone` can close.  If no error occurs, only
`wgDone` ever becomes ready and the collector returns nil.  If an error
occurs and the collector reaches its `select` before `wgDone` is closed, the
error case is ready first and the first error is returned.  If the collector
arrives only after everything has finished, both cases are ready and Go's
`select` chooses uniformly: on `pickDoneOnTie` it returns nil despite the
buffered error. -/
def waitParallelContext (arrivals : List (Option GoError)) (sched : CollectorSchedule) :
    Option GoError :=
  match firstError arrivals with
  | none => none
  | some e => if sched.lateToSelect && sched.pickDoneOnTie then none else some e

/-! ## HTTP probe (checker/http/http.go)

The expectation chain of `HTTP.Check`, from the instant a response has
arrived.  The transport phase (building the client, the request, the TLS
material) is not modelled: the claims under study are about the response
validations.  The response body is an `io.ReadCloser` stream: every
`io.ReadAll(resp.Body)` returns whatever the stream still holds and leaves it
empty, so the stream state is threaded through the body-based validations.
The external matching libraries — `regexp`, `gjson`, `htmlquery` — are
parameters of the model (`MatchOracles`); the checker's own control flow is
the subject.  (`regexp.MatchString`'s error is discarded by the source, and
`htmlquery.Parse` accepts any input, so `Bool`-valued oracles lose nothing on
the paths modelled here.) -/

/-- The validation-relevant configuration of the `HTTP` checker struct; a zero
value (`0` / `""`) means the expectation is not configured. -/
structure HTTP where
  expectStatusCode : ℤ
  expectBodyRegex : String
  expectBodyJSON : String
  expectBodyXPath : String
  expectHeader : String
deriving DecidableEq

/-- An HTTP response: status code, the full content the body stream delivers,
and the header map (keys stored in canonical MIME form, as `net/http` does). -/
structure HTTPResponse where
  statusCode : ℤ
  body : String
  headers : List (String × List String)
deriving DecidableEq

/-- The external matchers used by the validations. -/
structure MatchOracles where
  regexMatch : String → String → Bool
  jsonPathExists : String → String → Bool
  xpathMatches : String → String → Bool

/-- `HTTP.truncateString`: cut a body excerpt down to `num` characters with an
ellipsis (Go counts bytes; the model counts characters, which agree on the
ASCII bodies exercised here). -/
def truncateString (str : String) (num : ℕ) : String :=
  if str.length > num then
    let num := if num > 3 then num - 3 else num
    str.take num ++ "..."
  else str

/-- `checkingStatusCodeExpectation`. -/
def checkingStatusCodeExpectation (h : HTTP) (resp : HTTPResponse) : Option GoError :=
  if h.expectStatusCode ≠ resp.statusCode then
    some (.expected "the status code doesn't expect" none
      [("actual", toString resp.statusCode), ("expect", toString h.expectStatusCode)])
  else none

/-- `checkingBodyExpectation`: read the (remaining) body and match the
configured regex against it; returns the verdict and the drained stream. -/
def checkingBodyExpectation (M : MatchOracles) (h : HTTP) (bodyStream : String) :
    Option GoError × String :=
  let bodyString := bodyStream
  if !M.regexMatch h.expectBodyRegex bodyString then
    (some (.expected "the body doesn't expect" none
      [("actual", truncateString bodyString 50), ("expect", h.expectBodyRegex)]), "")
  else (none, "")

/-- `checkingJSONExpectation`: read the (remaining) body and test whether the
`gjson` path resolves to an existing value. -/
def checkingJSONExpectation (M : MatchOracles) (h : HTTP) (bodyStream : String) :
    Option GoError × String :=
  let bodyString := bodyStream
  if !M.jsonPathExists bodyString h.expectBodyJSON then
    (some (.expected "the JSON doesn't match" none
      [("actual", truncateString bodyString 50), ("expect", h.expectBodyJSON)]), "")
  else (none, "")

/-- `checkingXPathExpectation`: read the (remaining) body, parse it and test
whether the XPath query yields a node. -/
def checkingXPathExpectation (M : MatchOracles) (h : HTTP) (bodyStream : String) :
    Option GoError × String :=
  let bodyString := bodyStream
  if !M.xpathMatches bodyString h.expectBodyXPath then
    (some (.expected "the XPath doesn't match" none
      [("actual", truncateString bodyString 50), ("expect", h.expectBodyXPath)]), "")
  else (none, "")

/-- Whether a character may appear in a MIME header field name
(`net/textproto`'s token table, ASCII only). -/
def isTokenChar (c : Char) : Bool :=
  c.isAlphanum || ['!', '#', '$', '%', '&', Char.ofNat 39, '*', '+', '-', '.', '^', '_',
    Char.ofNat 96, '|', '~'].contains c

/-- `textproto.CanonicalMIMEHeaderKey`: if every character is a valid header
field character, uppercase the first letter and each letter following a
hyphen and lowercase the rest; otherwise return the key unchanged. -/
def canonicalChars : Bool → List Char → List Char
  | _, [] => []
  | upper, c :: cs =>
    let c := if upper then c.toUpper else c.toLower
    c :: canonicalChars (c = '-') cs

/-- See `canonicalChars`. -/
def canonicalMIMEHeaderKey (s : String) : String :=
  if s.data.all isTokenChar then String.mk (canonicalChars true s.data) else s

/-- `http.Header.Get`: canonicalize the key, then the first value stored under
it, `""` when absent. -/
def headerGet (headers : List (String × List String)) (key : String) : String :=
  match headers.lookup (canonicalMIMEHeaderKey key) with
  | some (v :: _) => v
  | _ => ""

/-- The raw map membership test `_, ok := resp.Header[key]` (no
canonicalization: the bare parsed key against the stored canonical keys). -/
def headerHasRaw (headers : List (String × List String)) (key : String) : Bool :=
  (headers.lookup key).isSome

/-- `strings.SplitN(s, "=", 2)`. -/
def splitN2Eq (s : String) : List String :=
  match s.splitOn "=" with
  | [x] => [x]
  | x :: rest => [x, String.intercalate "=" rest]
  | [] => [s]

/-- A rendering of the header map for the `actual` detail of the key-presence
error (Go prints the `http.Header` map; the exact rendering is irrelevant to
every claim). -/
def headersRender (headers : List (String × List String)) : String :=
  String.intercalate ", " (headers.map fun kv => kv.1)

/-- `checkingHeaderExpectation`: split `"Name"` or `"Name=regex"`; with a
regex part, a non-matching value fails first; in every case the bare parsed
name must be a key of the header map. -/
def checkingHeaderExpectation (M : MatchOracles) (h : HTTP) (resp : HTTPResponse) :
    Option GoError :=
  match splitN2Eq h.expectHeader with
  | [key, pat] =>
    let headerValue := headerGet resp.headers key
    if !M.regexMatch pat headerValue then
      some (.expected "the http header key and value doesn't expect" none
        [("actual", headerValue), ("expect", h.expectHeader)])
    else if !headerHasRaw resp.headers key then
      some (.expected "the http header key doesn't expect" none
        [("actual", headersRender resp.headers), ("expect", h.expectHeader)])
    else none
  | parsed =>
    let key := parsed.headD ""
    if !headerHasRaw resp.headers key then
      some (.expected "the http header key doesn't expect" none
        [("actual", headersRender resp.headers), ("expect", h.expectHeader)])
    else none

/-- The expectation chain at the end of `HTTP.Check`: status code, body regex,
body JSON, body XPath, header — each run only when configured, each body-based
one draining the shared body stream, the first failure returned at once. -/
def httpCheck (M : MatchOracles) (h : HTTP) (resp : HTTPResponse) : Option GoError :=
  let body0 := resp.body
  match (if h.expectStatusCode ≠ 0 then checkingStatusCodeExpectation h resp else none) with
  | some e => some e
  | none =>
    let r1 := if h.expectBodyRegex ≠ "" then checkingBodyExpectation M h body0
      else (none, body0)
    match r1.1 with
    | some e => some e
    | none =>
      let r2 := if h.expectBodyJSON ≠ "" then checkingJSONExpectation M h r1.2
        else (none, r1.2)
      match r2.1 with
      | some e => some e
      | none =>
        let r3 := if h.expectBodyXPath ≠ "" then checkingXPathExpectation M h r2.2
          else (none, r2.2)
        match r3.1 with
        | some e => some e
        | none =>
          if h.expectHeader ≠ "" then checkingHeaderExpectation M h resp else none

/-! ## gRPC health probe (checker/grpc/grpc.go, `checkHealth`) -/

/-- `grpc_health_v1.HealthCheckResponse` status values. -/
inductive HealthStatus where
  | serving
  | notServing
  | unknown
  | serviceUnknown
deriving DecidableEq

/-- `status.String()`. -/
def healthStatusString : HealthStatus → String
  | .serving => "SERVING"
  | .notServing => "NOT_SERVING"
  | .unknown => "UNKNOWN"
  | .serviceUnknown => "SERVICE_UNKNOWN"

/-- A failed health RPC as `checkHealth` classifies it: the verdicts of
`os.IsTimeout` and `checker.IsConnectionRefused` on the error, and its
message. -/
structure RPCError where
  isTimeout : Bool
  isConnRefused : Bool
  msg : String
deriving DecidableEq

/-- The outcome of `healthClient.Check`. -/
inductive RPCResult where
  | ok (status : HealthStatus)
  | err (e : RPCError)
deriving DecidableEq

/-- `GRPC.checkHealth` from the health RPC onward: on an RPC error, first the
two context sentinels (returned verbatim), then the timeout and
connection-refused classifications, then the catch-all wrap; on a response,
any status other than `SERVING` is an expected "service is not serving"
error.  `ctxErr` is `ctx.Err()` at the instant the RPC returns. -/
def checkHealth (serviceName address : String) (ctxErr : Option GoError)
    (r : RPCResult) : Option GoError :=
  match r with
  | .err e =>
    if ctxErr = some .canceled then some .canceled
    else if ctxErr = some .deadlineExceeded then some .deadlineExceeded
    else if e.isTimeout then
      some (.expected "timed out while performing health check" (some e.msg)
        [("service", serviceName)])
    else if e.isConnRefused then
      some (.expected "failed to establish a grpc connection" (some e.msg)
        [("address", address), ("service", serviceName)])
    else
      some (.expected "health check failed" (some e.msg) [("service", serviceName)])
  | .ok status =>
    if status ≠ .serving then
      some (.expected "service is not serving" none
        [("status", healthStatusString status), ("expected", healthStatusString .serving),
          ("service", serviceName)])
    else none

/-! ## Properties of the backoff calculator -/

lemma ratTrunc_eq_floor (q : ℚ) (hq : 0 ≤ q) : ratTrunc q = ⌊q⌋ := by
  rw [ratTrunc, Rat.floor_def]
  exact Int.tdiv_eq_ediv (Rat.num_nonneg.mpr hq) (by positivity)

lemma one_le_ratTrunc_pow (c : ℚ) (n : ℕ) (hc : 1 < c) : 1 ≤ ratTrunc (c ^ n) := by
  have hq1 : (1 : ℚ) ≤ c ^ n := one_le_pow₀ hc.le
  rw [ratTrunc_eq_floor _ (by linarith)]
  exact Int.le_floor.mpr (by exact_mod_cast hq1)

lemma ratTrunc_pow_mono (c : ℚ) (hc : 1 < c) {i j : ℕ} (hij : i ≤ j) :
    ratTrunc (c ^ i) ≤ ratTrunc (c ^ j) := by
  have h0 : (0 : ℚ) ≤ c ^ i := by positivity
  have h0' : (0 : ℚ) ≤ c ^ j := by positivity
  rw [ratTrunc_eq_floor _ h0, ratTrunc_eq_floor _ h0']
  exact Int.floor_mono (pow_le_pow_right₀ hc.le hij)

lemma backoff_term_pos (n : ℕ) (c : ℚ) (b : ℤ) (hc : 1 < c) (hb : 0 < b) :
    0 < b * ratTrunc (c ^ n) :=
  mul_pos hb (lt_of_lt_of_le one_pos (one_le_ratTrunc_pow c n hc))

lemma backoff_term_le (n : ℕ) (c : ℚ) (b m : ℤ) (hc : 1 < c) (hb : 0 < b)
    (h : ¬ (m : ℚ) / (b : ℚ) < c ^ n) : b * ratTrunc (c ^ n) ≤ m := by
  have hb' : (0 : ℚ) < (b : ℚ) := by exact_mod_cast hb
  have hle : (c : ℚ) ^ n ≤ (m : ℚ) / (b : ℚ) := not_lt.mp h
  have hbm : (c : ℚ) ^ n * (b : ℚ) ≤ (m : ℚ) := (le_div_iff₀ hb').mp hle
  have htr : ((ratTrunc (c ^ n) : ℤ) : ℚ) ≤ c ^ n := by
    rw [ratTrunc_eq_floor _ (by positivity)]
    exact Int.floor_le _
  have : ((b * ratTrunc (c ^ n) : ℤ) : ℚ) ≤ (m : ℚ) := by
    push_cast
    nlinarith
  exact_mod_cast this

/-- The closed form of the calculator under the waiter's validated inputs:
the max interval once the exact multiplier exceeds the `max/base` ratio, and
otherwise the base interval scaled by the truncated multiplier (which the
remaining two branches of the source can then never override). -/
lemma exponentialBackoff_eq (n : ℕ) (c : ℚ) (b m : ℤ) (hc : 1 < c) (hb : 0 < b)
    (hm : b ≤ m) :
    exponentialBackoff n c b m =
      .ok (if (m : ℚ) / (b : ℚ) < c ^ n then m else b * ratTrunc (c ^ n)) := by
  unfold exponentialBackoff
  by_cases h : (m : ℚ) / (b : ℚ) < c ^ n
  · rw [if_pos h, if_pos h]
  · rw [if_neg h, if_neg h,
      if_neg (not_le.mpr (backoff_term_pos n c b hc hb)),
      if_neg (not_lt.mpr (backoff_term_le n c b m hc hb h))]

/-- C3: the claim reads the exponential calculator as returning exactly
`min(base × coefficient^attempt, max)`; on the source, the float multiplier is
truncated to an integer by the `time.Duration(multiplier)` conversion before
it scales the base, so at base 100 ms, coefficient 1.5, attempt 2 the result
is 100 ms × ⌊2.25⌋ = 200 ms, not the claimed
min(100 ms × 2.25, 5 s) = 225 ms. -/
theorem exponentialBackoff_truncates_counterexample :
    exponentialBackoff 2 (3 / 2) 100000000 5000000000 = Except.ok 200000000 ∧
      exponentialBackoff 2 (3 / 2) 100000000 5000000000 ≠ Except.ok 225000000 := by
  with_unfolding_all decide

/-- C3 (amended): for attempt `n ≥ 0`, coefficient `c > 1`, base `b > 0` and
max `m ≥ b`, the exponential calculator returns `m` when `c^n` exceeds the
ratio `m / b`, and otherwise `b` times the multiplier `c^n` truncated to an
integer (the result then being automatically positive and at most `m`); e.g.
base 100 ms, coefficient 1.5, attempt 2 yields 200 ms. -/
theorem exponentialBackoff_value (n : ℕ) (c : ℚ) (b m : ℤ) (hc : 1 < c) (hb : 0 < b)
    (hm : b ≤ m) :
    exponentialBackoff n c b m =
      .ok (if (m : ℚ) / (b : ℚ) < c ^ n then m else b * ratTrunc (c ^ n)) :=
  exponentialBackoff_eq n c b m hc hb hm

/-- C3 witness: the amended formula evaluated at the claim's own example
(base 100 ms, coefficient 1.5, attempt 2, max 5 s). -/
theorem exponentialBackoff_value_witness :
    exponentialBackoff 2 (3 / 2) 100000000 5000000000 = Except.ok 200000000 := by
  rw [exponentialBackoff_value 2 (3 / 2) 100000000 5000000000 (by norm_num) (by norm_num)
    (by norm_num)]
  with_unfolding_all decide

/-- C5: for coefficient `c > 1`, base `b > 0` and max `m ≥ b`, the exponential
calculator is monotone in the attempt count — the value at attempt `n + 1` is
at least the value at attempt `n` — and once the value reaches `m` it stays
`m`. -/
theorem exponentialBackoff_monotone (n : ℕ) (c : ℚ) (b m v v' : ℤ) (hc : 1 < c)
    (hb : 0 < b) (hm : b ≤ m)
    (h1 : exponentialBackoff n c b m = .ok v)
    (h2 : exponentialBackoff (n + 1) c b m = .ok v') :
    v ≤ v' ∧ (v = m → v' = m) := by
  rw [exponentialBackoff_eq n c b m hc hb hm] at h1
  rw [exponentialBackoff_eq (n + 1) c b m hc hb hm] at h2
  have hv := Except.ok.inj h1
  have hv' := Except.ok.inj h2
  have hpow : (c : ℚ) ^ n ≤ c ^ (n + 1) := pow_le_pow_right₀ hc.le (Nat.le_succ n)
  by_cases hA : (m : ℚ) / (b : ℚ) < c ^ n
  · have hA' : (m : ℚ) / (b : ℚ) < c ^ (n + 1) := lt_of_lt_of_le hA hpow
    rw [if_pos hA] at hv
    rw [if_pos hA'] at hv'
    exact ⟨by rw [← hv, ← hv'], fun _ => hv'.symm⟩
  · rw [if_neg hA] at hv
    by_cases hA' : (m : ℚ) / (b : ℚ) < c ^ (n + 1)
    · rw [if_pos hA'] at hv'
      refine ⟨?_, fun _ => hv'.symm⟩
      rw [← hv, ← hv']
      exact backoff_term_le n c b m hc hb hA
    · rw [if_neg hA'] at hv'
      have hmono : b * ratTrunc (c ^ n) ≤ b * ratTrunc (c ^ (n + 1)) :=
        mul_le_mul_of_nonneg_left (ratTrunc_pow_mono c hc (Nat.le_succ n)) hb.le
      refine ⟨by rw [← hv, ← hv']; exact hmono, fun hvm => ?_⟩
      have hub : b * ratTrunc (c ^ (n + 1)) ≤ m := backoff_term_le (n + 1) c b m hc hb hA'
      rw [← hv']
      rw [← hv] at hvm
      exact le_antisymm hub (hvm ▸ hmono)

/-- C5 witness: the monotonicity and saturation conclusions at coefficient 2,
base 5 ns, max 20 ns, attempts 1 and 2. -/
theorem exponentialBackoff_monotone_witness :
    exponentialBackoff 1 2 5 20 = Except.ok 10 ∧ exponentialBackoff 2 2 5 20 = Except.ok 20 ∧
      ((10 : ℤ) ≤ 20 ∧ ((10 : ℤ) = 20 → (20 : ℤ) = 20)) :=
  ⟨by with_unfolding_all decide, by with_unfolding_all decide,
    exponentialBackoff_monotone 1 2 5 20 10 20 (by norm_num) (by norm_num) (by norm_num)
      (by with_unfolding_all decide) (by with_unfolding_all decide)⟩

/-- C10: under the preconditions the waiter's validation establishes
(attempt count ≥ 0, coefficient > 1, 0 < base ≤ max), the calculator's
"calculated interval is invalid" branch is unreachable — it always returns a
strictly positive duration without error. -/
theorem exponentialBackoff_no_error (n : ℕ) (c : ℚ) (b m : ℤ) (hc : 1 < c) (hb : 0 < b)
    (hm : b ≤ m) :
    ∃ v, exponentialBackoff n c b m = Except.ok v ∧ 0 < v := by
  refine ⟨_, exponentialBackoff_eq n c b m hc hb hm, ?_⟩
  split
  · exact lt_of_lt_of_le hb hm
  · exact backoff_term_pos n c b hc hb

/-- C10 witness: attempt 3, coefficient 2, base 7 ns, max 100 ns evaluates to
the positive duration 56 ns. -/
theorem exponentialBackoff_no_error_witness :
    exponentialBackoff 3 2 7 100 = Except.ok 56 ∧
      ∃ v, exponentialBackoff 3 2 7 100 = Except.ok v ∧ 0 < v :=
  ⟨by with_unfolding_all decide,
    exponentialBackoff_no_error 3 2 7 100 (by norm_num) (by norm_num) (by norm_num)⟩

/-! ## Properties of the waiter loop -/

lemma waitLoop_mem_lt (o : WaiterOptions) (p : Probe) (ctx : GoContext) (d : ℤ)
    (hd : ctx.doneAt = some d) :
    ∀ fuel t k r, t < d → ∀ ts ∈ (waitLoop o p ctx fuel t k r).1, ts < d := by
  intro fuel
  induction fuel with
  | zero =>
    intro t k r _ ts hts
    simp [waitLoop] at hts
  | succ n ih =>
    intro t k r ht ts hts
    rw [waitLoop] at hts
    simp only [hd] at hts
    by_cases hstop :
        (((p.check k).isNone && !o.invertCheck) || ((p.check k).isSome && o.invertCheck)) = true
    · rw [if_pos hstop] at hts
      simp at hts
      omega
    · rw [if_neg hstop] at hts
      set w := waitDurationFor o (if r < 1000000 then r + 1 else r) with hw
      by_cases hdone : d ≤ t + w
      · rw [if_pos hdone] at hts
        simp at hts
        omega
      · rw [if_neg hdone] at hts
        simp only [List.mem_cons] at hts
        rcases hts with h | h
        · omega
        · exact ih (t + w) (k + 1) _ (by omega) ts h

lemma waitLoop_tail_lt (o : WaiterOptions) (p : Probe) (ctx : GoContext) (d : ℤ)
    (hd : ctx.doneAt = some d) (fuel : ℕ) (t : ℤ) (k r : ℕ) :
    ∀ ts ∈ (waitLoop o p ctx fuel t k r).1.tail, ts < d := by
  intro ts hts
  cases fuel with
  | zero => simp [waitLoop] at hts
  | succ n =>
    rw [waitLoop] at hts
    simp only [hd] at hts
    by_cases hstop :
        (((p.check k).isNone && !o.invertCheck) || ((p.check k).isSome && o.invertCheck)) = true
    · rw [if_pos hstop] at hts
      simp at hts
    · rw [if_neg hstop] at hts
      set w := waitDurationFor o (if r < 1000000 then r + 1 else r) with hw
      by_cases hdone : d ≤ t + w
      · rw [if_pos hdone] at hts
        simp at hts
      · rw [if_neg hdone] at hts
        simp only [List.tail_cons] at hts
        exact waitLoop_mem_lt o p ctx d hd n (t + w) (k + 1) _ (by omega) ts hts

lemma checkTimes_identity_map (t : ℤ) (l : List ℤ) :
    checkTimes (.identityCall t :: l.map .checkCall) = l := by
  induction l with
  | nil => rfl
  | cons a rest ih =>
    simp only [checkTimes, List.filterMap_cons, List.map_cons] at ih ⊢
    rw [ih]

/-- A linear-policy, non-inverted configuration whose timeout is 0
("unlimited": the parent context is used unchanged). -/
def linearNoTimeoutOptions : WaiterOptions where
  timeout := 0
  interval := nsPerSecond
  invertCheck := false
  backoffPolicy := BackoffPolicyLinear
  backoffExponentialMaxInterval := 5 * nsPerSecond
  backoffCoefficient := 2

/-- The default configuration with inverted checking switched on. -/
def invertedOptions : WaiterOptions :=
  { defaultWaiterOptions with invertCheck := true }

/-- A probe whose every check attempt fails with an ordinary error. -/
def alwaysFailingProbe : Probe :=
  ⟨.ok "ID", fun _ => some (.other "connection refused")⟩

/-- A probe whose every check attempt returns `context.DeadlineExceeded`. -/
def deadlineErrorProbe : Probe :=
  ⟨.ok "ID", fun _ => some .deadlineExceeded⟩

/-- C1: the claim says no `Check` invocation ever begins at or after the
overall deadline, even when the parent context is already cancelled or expired
on entry.  On the source, the loop body invokes `Check` before ever consulting
the context (the only context test sits in the post-attempt timer select), so
with a parent context cancelled since instant 0 and the waiter entered at
instant 5 under an unlimited timeout — making the parent the overall
deadline — the lone `Check` invocation is stamped 5, which is not strictly
before the deadline 0. -/
theorem waitContext_check_after_deadline_counterexample :
    checkTimes (waitContext 3 ⟨some 0, .canceled⟩ 5 alwaysFailingProbe
        linearNoTimeoutOptions).1 = [5] ∧
      (derivedContext ⟨some 0, .canceled⟩ 5 linearNoTimeoutOptions).doneAt = some 0 ∧
      ¬ ((5 : ℤ) < 0) := by decide

/-- C1 (amended): every `Check` invocation after the first begins strictly
before the overall deadline; the first invocation of the loop is made
unconditionally, even when the deadline has already expired on entry, because
the loop consults the context only in the post-attempt timer select. -/
theorem waitContext_later_checks_before_deadline (fuel : ℕ) (ctx : GoContext) (now : ℤ)
    (p : Probe) (o : WaiterOptions) (d : ℤ)
    (hd : (derivedContext ctx now o).doneAt = some d) :
    ∀ ts ∈ (checkTimes (waitContext fuel ctx now p o).1).tail, ts < d := by
  intro ts hts
  unfold waitContext at hts
  cases hv : validateOptions o with
  | some e => rw [hv] at hts; simp [checkTimes] at hts
  | none =>
    rw [hv] at hts
    cases hid : p.identity with
    | error e => rw [hid] at hts; simp [checkTimes] at hts
    | ok s =>
      rw [hid] at hts
      simp only [checkTimes_identity_map] at hts
      exact waitLoop_tail_lt o p (derivedContext ctx now o) d hd fuel now 0 0 ts hts

/-- C1 witness: probe failing every attempt, parent context never done,
default-like options (10 s timeout, 1 s linear interval), entered at instant
0: the checks after the first happen at 1 s and 2 s, both strictly before the
10 s deadline. -/
theorem waitContext_later_checks_before_deadline_witness :
    (checkTimes (waitContext 3 ⟨none, .canceled⟩ 0 alwaysFailingProbe
        defaultWaiterOptions).1).tail = [1000000000, 2000000000] ∧
      ∀ ts ∈ (checkTimes (waitContext 3 ⟨none, .canceled⟩ 0 alwaysFailingProbe
        defaultWaiterOptions).1).tail, ts < 10000000000 :=
  ⟨by decide,
    waitContext_later_checks_before_deadline 3 ⟨none, .canceled⟩ 0 alwaysFailingProbe
      defaultWaiterOptions 10000000000 (by decide)⟩

lemma waitLoop_fst_eq_nil (o : WaiterOptions) (p : Probe) (ctx : GoContext) (fuel : ℕ)
    (t : ℤ) (k r : ℕ) (h : (waitLoop o p ctx fuel t k r).1 = []) :
    (waitLoop o p ctx fuel t k r).2 = none := by
  cases fuel with
  | zero => rfl
  | succ n =>
    exfalso
    rw [waitLoop] at h
    by_cases hstop :
        (((p.check k).isNone && !o.invertCheck) || ((p.check k).isSome && o.invertCheck)) = true
    · rw [if_pos hstop] at h
      simp at h
    · rw [if_neg hstop] at h
      cases hda : ctx.doneAt with
      | none => rw [hda] at h; simp at h
      | some d =>
        simp only [hda] at h
        by_cases hdone : d ≤ t + waitDurationFor o (if r < 1000000 then r + 1 else r)
        · rw [if_pos hdone] at h; simp at h
        · rw [if_neg hdone] at h; simp at h

/-- C2: the claim says a cancellation error returned by `Check`
(`context.Canceled` or `context.DeadlineExceeded`) does not count as inverted
success, so that the waiter would terminate with the deadline's cancellation
cause.  On the source the inverted stop predicate is just `err != nil`: with
inverted checking and a probe whose first check returns
`context.DeadlineExceeded`, the waiter breaks at once and returns nil instead
of the cancellation cause. -/
theorem waitContext_inverted_cancellation_counterexample :
    waitContext 3 ⟨none, .canceled⟩ 0 deadlineErrorProbe invertedOptions =
      ([.identityCall 0, .checkCall 0], some WaitReturn.ok) ∧
      some WaitReturn.ok ≠ some (WaitReturn.ctxError GoError.deadlineExceeded) := by decide

/-- C2 (amended): in inverted mode the waiter stops and returns nil exactly
when `Check` returns any non-nil error — cancellation errors included, as the
stop predicate `err != nil && invertCheck` does not single them out.  A loop
iteration breaks with nil iff the attempt's error is non-nil, and a
first-attempt error of any kind makes `WaitContext` return nil. -/
theorem waitContext_inverted_stops_on_any_error (o : WaiterOptions) (p : Probe)
    (ctx : GoContext) (fuel : ℕ) (t : ℤ) (k retries : ℕ)
    (hinv : o.invertCheck = true) :
    (waitLoop o p ctx (fuel + 1) t k retries = ([t], some .ok) ↔ p.check k ≠ none) ∧
    (validateOptions o = none → (∃ s, p.identity = .ok s) → p.check 0 ≠ none →
      ∀ ctx0 now, (waitContext (fuel + 1) ctx0 now p o).2 = some .ok) := by
  have hstop : ∀ k', p.check k' ≠ none →
      ((((p.check k').isNone && !o.invertCheck) || ((p.check k').isSome && o.invertCheck))
        = true) := by
    intro k' hk
    cases hc : p.check k' with
    | none => exact absurd hc hk
    | some e => simp [hc, hinv]
  constructor
  · constructor
    · intro heq
      intro hk
      rw [waitLoop] at heq
      rw [if_neg] at heq
      · cases hda : ctx.doneAt with
        | none =>
          simp only [hda] at heq
          have h1 := congrArg Prod.fst heq
          have h2 := congrArg Prod.snd heq
          simp at h1 h2
          have := waitLoop_fst_eq_nil o p ctx fuel
            (t + waitDurationFor o (if retries < 1000000 then retries + 1 else retries))
            (k + 1) (if retries < 1000000 then retries + 1 else retries) h1
          rw [this] at h2
          simp at h2
        | some d =>
          simp only [hda] at heq
          by_cases hdone :
              d ≤ t + waitDurationFor o (if retries < 1000000 then retries + 1 else retries)
          · rw [if_pos hdone] at heq
            have h2 := congrArg Prod.snd heq
            simp at h2
          · rw [if_neg hdone] at heq
            have h1 := congrArg Prod.fst heq
            have h2 := congrArg Prod.snd heq
            simp at h1 h2
            have := waitLoop_fst_eq_nil o p ctx fuel
              (t + waitDurationFor o (if retries < 1000000 then retries + 1 else retries))
              (k + 1) (if retries < 1000000 then retries + 1 else retries) h1
            rw [this] at h2
            simp at h2
      · rw [hk, hinv]
        simp
    · intro hk
      rw [waitLoop, if_pos (hstop k hk)]
  · intro hv hid hk ctx0 now
    obtain ⟨s, hs⟩ := hid
    unfold waitContext
    rw [hv, hs]
    simp only
    rw [waitLoop, if_pos (hstop 0 hk)]

/-- C2 witness: with inverted checking and a probe returning
`context.DeadlineExceeded` from its first check, the loop breaks at its first
iteration and `WaitContext` returns nil. -/
theorem waitContext_inverted_stops_on_any_error_witness :
    waitLoop invertedOptions deadlineErrorProbe ⟨none, .canceled⟩ 1 0 0 0 =
      ([0], some WaitOutcome.ok) ∧
      (waitContext 1 ⟨none, .canceled⟩ 0 deadlineErrorProbe invertedOptions).2 =
        some WaitReturn.ok :=
  ⟨(waitContext_inverted_stops_on_any_error invertedOptions deadlineErrorProbe
      ⟨none, .canceled⟩ 0 0 0 0 rfl).1.mpr (by decide),
    (waitContext_inverted_stops_on_any_error invertedOptions deadlineErrorProbe
      ⟨none, .canceled⟩ 0 0 0 0 rfl).2 (by decide) ⟨"ID", rfl⟩ (by decide)
      ⟨none, .canceled⟩ 0⟩

/-- C4: an invalid configuration — backoff policy outside {linear,
exponential}; exponential policy with coefficient ≤ 1 or max interval below
the interval; or non-positive interval — makes the validation block produce a
fatal error, and `WaitContext` then returns it with an empty probe-interaction
trace: neither `Identity()` nor `Check()` is ever called.  In particular,
exponential backoff with coefficient 1.0 is rejected with exactly the message
"backoff coefficient must be greater than 1.0, got: 1.000000". -/
theorem waitContext_invalid_config_fatal (o : WaiterOptions) (fuel : ℕ) (ctx : GoContext)
    (now : ℤ) (p : Probe) :
    ((o.backoffPolicy ≠ BackoffPolicyLinear ∧ o.backoffPolicy ≠ BackoffPolicyExponential) ∨
      (o.backoffPolicy = BackoffPolicyExponential ∧
        (o.backoffCoefficient ≤ 1 ∨ o.backoffExponentialMaxInterval < o.interval)) ∨
      o.interval ≤ 0 → validateOptions o ≠ none) ∧
    (∀ e, validateOptions o = some e →
      waitContext fuel ctx now p o = ([], some (.fatalConfig e))) ∧
    (o.backoffPolicy = BackoffPolicyExponential → o.backoffCoefficient = 1 →
      validateOptions o = some (.coefficientNotGreaterThanOne 1) ∧
        ConfigError.message (.coefficientNotGreaterThanOne 1) =
          "backoff coefficient must be greater than 1.0, got: 1.000000") := by
  refine ⟨?_, ?_, ?_⟩
  · intro hbad
    unfold validateOptions
    split_ifs with h1 h2 h3 h4 <;> simp_all
    all_goals
      first
      | linarith
      | (obtain ⟨_, hd⟩ := hbad; rcases hd with hd | hd <;> linarith)
  · intro e he
    unfold waitContext
    rw [he]
  · intro hp hc
    constructor
    · unfold validateOptions
      rw [if_neg (by simp [hp, BackoffPolicyExponential]),
        if_pos ⟨hp, le_of_eq hc⟩, hc]
    · with_unfolding_all decide

/-- The defaults switched to the exponential policy with coefficient 1.0. -/
def coefficientOneOptions : WaiterOptions :=
  { defaultWaiterOptions with
    backoffPolicy := BackoffPolicyExponential
    backoffCoefficient := 1 }

/-- C4 witness: with the exponential policy and coefficient 1.0,
`WaitContext` returns the fatal coefficient error with the claimed message
and an empty probe-interaction trace. -/
theorem waitContext_invalid_config_fatal_witness :
    waitContext 3 ⟨none, .canceled⟩ 0 alwaysFailingProbe coefficientOneOptions =
      ([], some (.fatalConfig (.coefficientNotGreaterThanOne 1))) ∧
      ConfigError.message (.coefficientNotGreaterThanOne 1) =
        "backoff coefficient must be greater than 1.0, got: 1.000000" := by
  constructor
  · exact (waitContext_invalid_config_fatal coefficientOneOptions 3 ⟨none, .canceled⟩ 0
      alwaysFailingProbe).2.1 (.coefficientNotGreaterThanOne 1) (by with_unfolding_all decide)
  · exact ((waitContext_invalid_config_fatal coefficientOneOptions 3 ⟨none, .canceled⟩ 0
      alwaysFailingProbe).2.2 rfl rfl).2

lemma firstError_all_none (arrivals : List (Option GoError))
    (h : ∀ r ∈ arrivals, r = none) : firstError arrivals = none := by
  induction arrivals with
  | nil => rfl
  | cons a rest ih =>
    have ha : a = none := h a (List.mem_cons_self a rest)
    subst ha
    rw [firstError]
    exact ih fun r hr => h r (List.mem_cons_of_mem none hr)

lemma firstError_append (pre rest : List (Option GoError)) (e : GoError)
    (h : ∀ r ∈ pre, r = none) :
    firstError (pre ++ some e :: rest) = some e := by
  induction pre with
  | nil => rfl
  | cons a pre' ih =>
    have ha : a = none := h a (List.mem_cons_self a pre')
    subst ha
    rw [List.cons_append, firstError]
    exact ih fun r hr => h r (List.mem_cons_of_mem none hr)

/-- C6: the claim says that whenever some probe's run returns a non-nil
error, `WaitParallelContext` returns a non-nil error.  Nothing synchronizes
the collector with the workers: in the schedule where the lone (failing)
worker and the wait-group closer finish before the main goroutine reaches its
`select`, both the `wgDone` case and the buffered error are ready, Go's
`select` chooses uniformly, and on the done choice the collector returns nil
despite the probe's error sitting in the buffer. -/
theorem waitParallelContext_select_race_counterexample :
    waitParallelContext [some (GoError.other "probe failed")] ⟨true, true⟩ = none ∧
      firstError [some (GoError.other "probe failed")] =
        some (GoError.other "probe failed") := by
  decide

/-- C6 (amended): if every probe completes with nil the parallel waiter
returns nil, in every schedule.  If some probe fails, then in every schedule
in which the collector reaches its `select` before all probes have finished,
or the select's uniform tie choice takes the error case, it returns the first
error to arrive — independently of what the probes after it (`rest`) produce,
i.e. without waiting for them; and in every schedule whatsoever the result is
either that first error or nil-under-the-late-schedule-tie, the latter only
when the collector arrived after all probes finished and the uniform choice
took the done case. -/
theorem waitParallelContext_first_failure (arrivals pre rest : List (Option GoError))
    (e : GoError) (sched : CollectorSchedule) (hpre : ∀ r ∈ pre, r = none) :
    ((∀ r ∈ arrivals, r = none) → waitParallelContext arrivals sched = none) ∧
      (sched.lateToSelect = false ∨ sched.pickDoneOnTie = false →
        waitParallelContext (pre ++ some e :: rest) sched = some e) ∧
      (waitParallelContext (pre ++ some e :: rest) sched = some e ∨
        (waitParallelContext (pre ++ some e :: rest) sched = none ∧
          sched.lateToSelect = true ∧ sched.pickDoneOnTie = true)) := by
  have hfe := firstError_append pre rest e hpre
  refine ⟨fun h => ?_, fun hsched => ?_, ?_⟩
  · rw [waitParallelContext, firstError_all_none arrivals h]
  · rw [waitParallelContext, hfe]
    rcases hsched with hs | hs <;> simp [hs]
  · rw [waitParallelContext, hfe]
    by_cases hlate : sched.lateToSelect = true
    · by_cases htie : sched.pickDoneOnTie = true
      · right
        simp [hlate, htie]
      · left
        simp only [Bool.not_eq_true] at htie
        simp [hlate, htie]
    · left
      simp only [Bool.not_eq_true] at hlate
      simp [hlate]

/-- C6 witness: all-nil arrivals return nil, and with arrivals
`[nil, error, nil]` and a collector that is not late to its `select`, the
error — the first to arrive — is returned without regard to the later nil. -/
theorem waitParallelContext_first_failure_witness :
    waitParallelContext [none, some (GoError.other "x"), none] ⟨false, false⟩ =
      some (GoError.other "x") ∧
      waitParallelContext [none, none] ⟨false, false⟩ = none :=
  ⟨(waitParallelContext_first_failure [none, none] [none] [none] (GoError.other "x")
      ⟨false, false⟩ (by decide)).2.1 (Or.inl rfl),
    (waitParallelContext_first_failure [none, none] [none] [none] (GoError.other "x")
      ⟨false, false⟩ (by decide)).1 (by decide)⟩

/-! ## Properties of the HTTP expectation chain -/

lemma checkingBodyExpectation_snd (M : MatchOracles) (h : HTTP) (s : String) :
    (checkingBodyExpectation M h s).2 = "" := by
  simp only [checkingBodyExpectation]
  split <;> rfl

lemma checkingJSONExpectation_snd (M : MatchOracles) (h : HTTP) (s : String) :
    (checkingJSONExpectation M h s).2 = "" := by
  simp only [checkingJSONExpectation]
  split <;> rfl

/-- C7: with all five expectations configured, the chain runs in the fixed
order status code, body regex, body JSON, body XPath, header; the first check
to fail has its error returned and no later expectation is evaluated (each
conclusion below holds for arbitrary later oracles and response content, the
body-based checks after the first seeing the already-drained stream). -/
theorem httpCheck_order (M : MatchOracles) (h : HTTP) (resp : HTTPResponse)
    (hs : h.expectStatusCode ≠ 0) (hr : h.expectBodyRegex ≠ "")
    (hj : h.expectBodyJSON ≠ "") (hx : h.expectBodyXPath ≠ "")
    (hh : h.expectHeader ≠ "") :
    (checkingStatusCodeExpectation h resp ≠ none →
      httpCheck M h resp = checkingStatusCodeExpectation h resp) ∧
    (checkingStatusCodeExpectation h resp = none →
      (checkingBodyExpectation M h resp.body).1 ≠ none →
      httpCheck M h resp = (checkingBodyExpectation M h resp.body).1) ∧
    (checkingStatusCodeExpectation h resp = none →
      (checkingBodyExpectation M h resp.body).1 = none →
      (checkingJSONExpectation M h "").1 ≠ none →
      httpCheck M h resp = (checkingJSONExpectation M h "").1) ∧
    (checkingStatusCodeExpectation h resp = none →
      (checkingBodyExpectation M h resp.body).1 = none →
      (checkingJSONExpectation M h "").1 = none →
      (checkingXPathExpectation M h "").1 ≠ none →
      httpCheck M h resp = (checkingXPathExpectation M h "").1) ∧
    (checkingStatusCodeExpectation h resp = none →
      (checkingBodyExpectation M h resp.body).1 = none →
      (checkingJSONExpectation M h "").1 = none →
      (checkingXPathExpectation M h "").1 = none →
      httpCheck M h resp = checkingHeaderExpectation M h resp) := by
  refine ⟨?_, ?_, ?_, ?_, ?_⟩
  · intro h1
    obtain ⟨e, he⟩ := Option.ne_none_iff_exists'.mp h1
    unfold httpCheck
    rw [if_pos hs, he]
  · intro h1 h2
    obtain ⟨e, he⟩ := Option.ne_none_iff_exists'.mp h2
    unfold httpCheck
    rw [if_pos hs, h1]
    simp only [if_pos hr, he]
  · intro h1 h2 h3
    obtain ⟨e, he⟩ := Option.ne_none_iff_exists'.mp h3
    unfold httpCheck
    rw [if_pos hs, h1]
    simp only [if_pos hr, if_pos hj, h2, checkingBodyExpectation_snd, he]
  · intro h1 h2 h3 h4
    obtain ⟨e, he⟩ := Option.ne_none_iff_exists'.mp h4
    unfold httpCheck
    rw [if_pos hs, h1]
    simp only [if_pos hr, if_pos hj, if_pos hx, h2, h3, checkingBodyExpectation_snd,
      checkingJSONExpectation_snd, he]
  · intro h1 h2 h3 h4
    unfold httpCheck
    rw [if_pos hs, h1]
    simp only [if_pos hr, if_pos hj, if_pos hx, if_pos hh, h2, h3, h4,
      checkingBodyExpectation_snd, checkingJSONExpectation_snd]

/-- Oracles for the witnesses: every regex matches, no JSON path resolves,
every XPath matches. -/
def stubOracles : MatchOracles :=
  ⟨fun _ _ => true, fun _ _ => false, fun _ _ => true⟩

/-- An HTTP checker configuration with all five expectations set. -/
def allExpectationsHTTP : HTTP :=
  ⟨200, "wor.d", "a.b", "//p", "K=v"⟩

/-- A plain 200 response. -/
def helloResponse : HTTPResponse :=
  ⟨200, "hello world", [("K", ["v"])]⟩

/-- C7 witness: status code and body regex pass, the body JSON check fails
(on the drained stream), and `Check` returns the JSON error — the XPath and
header expectations, though configured, are not reached. -/
theorem httpCheck_order_witness :
    httpCheck stubOracles allExpectationsHTTP helloResponse =
      some (.expected "the JSON doesn't match" none [("actual", ""), ("expect", "a.b")]) := by
  have h := (httpCheck_order stubOracles allExpectationsHTTP helloResponse
    (by decide) (by decide) (by decide) (by decide) (by decide)).2.2.1
    (by decide) (by decide) (by decide)
  rw [h]
  decide

/-- C9: the body-based validations each drain the response body stream, so
when both a body-regex and a body-JSON expectation are configured (status
expectation passing or absent) and the regex matches the actual body, the JSON
validation evaluates its path against the empty string; as the path resolves
nothing in an empty document, `Check` returns the expected error "the JSON
doesn't match" (with an empty `actual` excerpt) for every response body. -/
theorem httpCheck_json_sees_drained_body (M : MatchOracles) (h : HTTP)
    (resp : HTTPResponse) (hr : h.expectBodyRegex ≠ "") (hj : h.expectBodyJSON ≠ "")
    (hs : h.expectStatusCode = 0 ∨ checkingStatusCodeExpectation h resp = none)
    (hmatch : M.regexMatch h.expectBodyRegex resp.body = true)
    (hempty : M.jsonPathExists "" h.expectBodyJSON = false) :
    httpCheck M h resp =
      some (.expected "the JSON doesn't match" none
        [("actual", ""), ("expect", h.expectBodyJSON)]) := by
  have hbody : checkingBodyExpectation M h resp.body = (none, "") := by
    simp only [checkingBodyExpectation, hmatch]
    rfl
  have hjson : checkingJSONExpectation M h "" =
      (some (.expected "the JSON doesn't match" none
        [("actual", ""), ("expect", h.expectBodyJSON)]), "") := by
    simp only [checkingJSONExpectation, hempty]
    rfl
  unfold httpCheck
  by_cases hsc : h.expectStatusCode = 0
  · rw [if_neg (by simp [hsc])]
    simp only [if_pos hr, if_pos hj, hbody, hjson]
  · have hnone : checkingStatusCodeExpectation h resp = none := by
      rcases hs with hs | hs
      · exact absurd hs hsc
      · exact hs
    rw [if_pos hsc, hnone]
    simp only [if_pos hr, if_pos hj, hbody, hjson]

/-- C9 witness: regex `wor.d` matches `"hello world"`, and the JSON check then
fails on the drained stream, yielding the "the JSON doesn't match" error with
an empty `actual` excerpt. -/
theorem httpCheck_json_sees_drained_body_witness :
    httpCheck stubOracles
        { allExpectationsHTTP with expectBodyXPath := "", expectHeader := "" }
        helloResponse =
      some (.expected "the JSON doesn't match" none [("actual", ""), ("expect", "a.b")]) :=
  httpCheck_json_sees_drained_body stubOracles
    { allExpectationsHTTP with expectBodyXPath := "", expectHeader := "" }
    helloResponse (by decide) (by decide) (Or.inr (by decide)) rfl rfl

/-! ## Properties of the gRPC health check -/

/-- C8: the claim says a health-RPC failure that is not a per-attempt timeout,
not a connection refusal and not a context cancellation yields a fatal
(non-expected) error.  On the source, `checkHealth`'s catch-all branch wraps
exactly such errors in `checker.NewExpectedError("health check failed", …)`,
which is an expected — retriable — error. -/
theorem checkHealth_other_error_counterexample :
    checkHealth "svc" "addr" none (.err ⟨false, false, "transport failure"⟩) =
      some (.expected "health check failed" (some "transport failure")
        [("service", "svc")]) ∧
      GoError.isExpected (.expected "health check failed" (some "transport failure")
        [("service", "svc")]) = true := by decide

/-- C8 (amended): when the health RPC fails with an error that is not a
per-attempt timeout, not a connection refusal, and with the context neither
cancelled nor past its deadline, `checkHealth` returns the expected
(retriable) error "health check failed" carrying the underlying error and the
service name — not a fatal error. -/
theorem checkHealth_other_error_expected (sn addr : String) (ctxErr : Option GoError)
    (e : RPCError) (hc : ctxErr ≠ some .canceled) (hd : ctxErr ≠ some .deadlineExceeded)
    (ht : e.isTimeout = false) (hcr : e.isConnRefused = false) :
    checkHealth sn addr ctxErr (.err e) =
      some (.expected "health check failed" (some e.msg) [("service", sn)]) ∧
      ∀ r, checkHealth sn addr ctxErr (.err e) = some r → r.isExpected = true := by
  have heq : checkHealth sn addr ctxErr (.err e) =
      some (.expected "health check failed" (some e.msg) [("service", sn)]) := by
    simp only [checkHealth]
    rw [if_neg hc, if_neg hd]
    simp [ht, hcr]
  refine ⟨heq, fun r hr => ?_⟩
  rw [heq] at hr
  cases hr
  rfl

/-- C8 witness: a health RPC failing with a plain transport error, no timeout
or refusal classification and a live context, produces the expected "health
check failed" error. -/
theorem checkHealth_other_error_expected_witness :
    checkHealth "svc" "addr" none (.err ⟨false, false, "transport failure"⟩) =
      some (.expected "health check failed" (some "transport failure")
        [("service", "svc")]) ∧
      ∀ r, checkHealth "svc" "addr" none (.err ⟨false, false, "transport failure"⟩) =
        some r → r.isExpected = true :=
  checkHealth_other_error_expected "svc" "addr" none ⟨false, false, "transport failure"⟩
    (by decide) (by decide) rfl rfl

